import Mathlib

/-!
Shallow embedding of the violifer RPC framework core (server dispatch,
client call multiplexer, discovery, load balancing, registry), translated
from the Go sources.  Machine integers are modelled as `Nat` with explicit
reduction mod `2 ^ 64` where the source uses `uint64`; Go maps are modelled
as association lists; fallible paths return `Except`/`Option`; a Go runtime
panic is a distinguished constructor of the result type.  Concurrency is
modelled by making the scheduling choice (which `select` branch fires, what
the remote fetch returned) an explicit oracle argument.
-/

namespace Violifer

/-- The wire magic constant, `const MagicNumber = 0x7a736b` in server.go. -/
def MagicNumber : Nat := 0x7a736b

/-- `2 ^ 64`, the modulus of `uint64` arithmetic in Go. -/
def U64 : Nat := 2 ^ 64

/-- The message of `ErrShutdown = errors.New("connection is shutdown")`. -/
def ErrShutdown : String := "connection is shutdown"

/-- Per-message metadata, `codec.Header` in codec.go. -/
structure Header where
  ServiceMethod : String
  Seq : Nat
  Error : String
deriving DecidableEq

/-- A response body: either the placeholder `invalidRequest = struct{}{}`
sent alongside a non-empty header error, or a reply value (modelled as a
string payload standing for the encoded `replyv`). -/
inductive Body where
  | invalidRequest
  | replyv (v : String)
deriving DecidableEq

/-- A method descriptor, `methodType` in service.go (only the call counter
is relevant to the dispatch logic embedded here). -/
structure methodType where
  numCalls : Nat
deriving DecidableEq

/-- A service descriptor, `service` in service.go: the handler name and the
map from method name to method descriptor, as an association list. -/
structure service where
  name : String
  method : List (String × methodType)
deriving DecidableEq

/-- Association-list lookup, modelling `sync.Map.Load` and Go map indexing
(first match wins; keys are unique in every state the program builds). -/
def assocLoad : List (String × α) → String → Option α
  | [], _ => none
  | (k, v) :: rest, key => if k = key then some v else assocLoad rest key

/-- Index of the last occurrence of `c`, modelling `strings.LastIndex`
(the searched character is ASCII, so byte and char indices coincide). -/
def lastIndexOf (c : Char) : List Char → Option Nat
  | [] => none
  | x :: xs =>
    match lastIndexOf c xs with
    | some i => some (i + 1)
    | none => if x = c then some 0 else none

/-- Outcome of `Server.findService`.  `panicNil` is the Go runtime panic
raised by the type assertion `svci.(*service)` when `serviceMap.Load`
returned a nil interface value. -/
inductive FindResult where
  | ok (svc : service) (mtype : methodType)
  | err (msg : String)
  | panicNil (serviceName : String)
deriving DecidableEq

/-- `Server.findService` from server.go / part_000: split `serviceMethod`
on the LAST dot; an absent dot is the ill-formed error; an absent service
sets the unknown-service error but does NOT return, so control falls
through to `svc = svci.(*service)`, a type assertion on a nil interface,
which panics; an absent method is the unknown-method error. -/
def findService (serviceMap : List (String × service)) (serviceMethod : String) : FindResult :=
  match lastIndexOf '.' serviceMethod.toList with
  | none => .err ("rpc server - service/method request ill-formed: " ++ serviceMethod)
  | some dot =>
    let serviceName := String.mk (serviceMethod.toList.take dot)
    let methodName := String.mk (serviceMethod.toList.drop (dot + 1))
    match assocLoad serviceMap serviceName with
    | none => .panicNil serviceName
    | some svc =>
      match assocLoad svc.method methodName with
      | none => .err ("rpc server - can\u0027t find method: " ++ methodName)
      | some mtype => .ok svc mtype

/-- The single response the handler goroutine of `Server.handleRequest`
writes once `svc.call` returns: on a handler error, the header carries the
error string and the body is the `invalidRequest` placeholder; otherwise
the header is unchanged and the body is the reply value. -/
def handlerResponse (h : Header) (callResult : Option String) (v : String) : Header × Body :=
  match callResult with
  | some e => ({ h with Error := e }, Body.invalidRequest)
  | none => (h, Body.replyv v)

/-- The timeout error string written by the `time.After` branch of
`Server.handleRequest` (the duration is rendered in nanoseconds). -/
def timeoutErrMsg (timeout : Nat) : String :=
  "rpc server - request handle timeout: expect within " ++ toString timeout

/-- `Server.handleRequest` from part_000, as the list of responses written
for one request.  The handler goroutine signals `called` (unbuffered) after
`svc.call` returns, writes its response, then signals `sent`.  With
`timeout = 0` the dispatcher waits for both signals, so the handler
response is the one written.  With `timeout > 0` the dispatcher selects
between `time.After` and `called`; the oracle `calledFirst` records which
case fires.  If the timeout fires first, the dispatcher writes the timeout
error response and returns; the handler then blocks forever on its send to
`called`, so its own response is never written.  `callResult` is the error
returned by `svc.call` (`none` on success) and `v` the computed reply. -/
def handleRequest (h : Header) (timeout : Nat) (calledFirst : Bool)
    (callResult : Option String) (v : String) : List (Header × Body) :=
  if timeout = 0 then
    [handlerResponse h callResult v]
  else if calledFirst then
    [handlerResponse h callResult v]
  else
    [({ h with Error := timeoutErrMsg timeout }, Body.invalidRequest)]

/-- Load-balancing selection policy, `SelectMode` in discovery.go. -/
inductive SelectMode where
  | RandomSelect
  | RoundRobinSelect
deriving DecidableEq

/-- Registry-free discovery state, `MultiServersDiscovery` in discovery.go:
the server list and the round-robin cursor `index`. -/
structure MultiServersDiscovery where
  servers : List String
  index : Nat
deriving DecidableEq

/-- The body of `func (d MultiServersDiscovery) Get(mode)` as it executes
on the receiver it was handed: pick by policy and, for round-robin, store
the advanced cursor into that receiver.  `rand` is the oracle for the draw
`d.random.Intn(n)` (already reduced mod `n` by `% n` here). -/
def MultiServersDiscovery.getBody (d : MultiServersDiscovery) (mode : SelectMode)
    (rand : Nat) : Except String (String × MultiServersDiscovery) :=
  let n := d.servers.length
  if hn : n = 0 then
    .error "rpc discovery - no available servers"
  else
    match mode with
    | .RandomSelect =>
      .ok (d.servers.get ⟨rand % n, Nat.mod_lt _ (Nat.pos_of_ne_zero hn)⟩, d)
    | .RoundRobinSelect =>
      let s := d.servers.get ⟨d.index % n, Nat.mod_lt _ (Nat.pos_of_ne_zero hn)⟩
      .ok (s, { d with index := (d.index + 1) % n })

/-- The observable call-site semantics of `Get`: the method is declared
with a VALUE receiver (`func (d MultiServersDiscovery) Get`), so the body
runs on a copy of the stored discovery; the updated cursor of the copy is
discarded when the method returns and the stored state of the caller is
returned unchanged alongside the selected server. -/
def MultiServersDiscovery.Get (d : MultiServersDiscovery) (mode : SelectMode)
    (rand : Nat) : Except String String × MultiServersDiscovery :=
  match d.getBody mode rand with
  | .error e => (.error e, d)
  | .ok (s, _) => (.ok s, d)

/-- Client call-multiplexer state, the mutable fields of `Client` in
client.go that the embedded operations touch. -/
structure Call where
  ServiceMethod : String
  Seq : Nat
  DoneCap : Nat
deriving DecidableEq

/-- The mutable state of `Client` in client.go: the `uint64` sequence
counter, the pending table (association list keyed by seq), and the two
unavailability flags. -/
structure Client where
  seq : Nat
  pending : List (Nat × Call)
  closing : Bool
  shutdown : Bool
deriving DecidableEq

/-- `newClientCodec`: the fresh client state, with `seq` starting at 1
(0 is reserved to mean no call). -/
def newClientCodec : Client :=
  { seq := 1, pending := [], closing := false, shutdown := false }

/-- `Client.registerCall`: under the state lock, refuse when closing or
shut down, otherwise assign the current counter value to the call, insert
it into the pending table and increment the counter (`uint64` wrap). -/
def Client.registerCall (c : Client) (call : Call) : Except String Nat × Client :=
  if c.closing || c.shutdown then
    (.error ErrShutdown, c)
  else
    let call' := { call with Seq := c.seq }
    (.ok c.seq, { c with pending := (call'.Seq, call') :: c.pending,
                         seq := (c.seq + 1) % U64 })

/-- The sequence numbers written in request headers by `n` consecutive
`Client.send` calls starting from state `c`.  `send` holds the sending
lock around both `registerCall` and the codec write, so wire order equals
registration order; a failed registration sends nothing. -/
def sendSeqs : Client → Nat → List Nat
  | _, 0 => []
  | c, n + 1 =>
    match c.registerCall ⟨"", 0, 1⟩ with
    | (.ok s, c') => s :: sendSeqs c' n
    | (.error _, c') => sendSeqs c' n

/-- `Client.Close`: under the state lock, a client already marked closing
yields `ErrShutdown`; otherwise mark `closing` and close the codec.  The
final `Bool` records whether `cc.Close()` was invoked during this call. -/
def Client.Close (c : Client) : Except String Unit × Client × Bool :=
  if c.closing then
    (.error ErrShutdown, c, false)
  else
    (.ok (), { c with closing := true }, true)

/-- Outcome of `Client.Go`: either `log.Panic` fired before any send, or
`Go` returned a `Call` whose `Done` channel has the given capacity. -/
inductive GoOutcome where
  | panicked
  | returned (doneCap : Nat)
deriving DecidableEq

/-- `Client.Go` from client.go, restricted to its `done`-channel logic:
a nil `done` is replaced by a fresh buffered channel of capacity 10; a
non-nil unbuffered `done` (capacity 0) hits `log.Panic` before the call is
built or sent; otherwise the channel of the caller is kept. -/
def clientGo (done : Option Nat) : GoOutcome :=
  match done with
  | none => .returned 10
  | some 0 => .panicked
  | some (cap + 1) => .returned (cap + 1)

/-- `defaultRPCPath` from part_000. -/
def defaultRPCPath : String := "/_rpc_"

/-- `connected` from part_000, the status the client requires. -/
def connected : String := "200 Connected to RPC"

/-- The bytes `NewHTTPClient` writes to the connection:
`fmt.Sprintf("CONNECT %s HTTP/1.0\n\n", defaultRPCPath)`. -/
def connectRequestLine : String :=
  "CONNECT " ++ defaultRPCPath ++ " HTTP/1.0\n\n"

/-- The decision `NewHTTPClient` takes on the parsed HTTP response
(`resp` is `.error` when `http.ReadResponse` failed, `.ok status`
otherwise): proceed to the normal `NewClient` handshake exactly when the
status equals `connected`; anything else is a fatal connect error. -/
def newHTTPClientCheck (resp : Except String String) : Except String Unit :=
  match resp with
  | .ok status =>
    if status = connected then .ok ()
    else .error ("unexpected HTTP response:" ++ status)
  | .error e => .error e

/-- The protocol `Option` struct of part_000 (named `RpcOption` here
because `Option` is taken in Lean); durations are nanosecond counts. -/
structure RpcOption where
  MagicNumber : Nat
  CodecType : String
  ConnectTimeout : Nat
  HandleTimeout : Nat
deriving DecidableEq

/-- `codec.GobType`. -/
def GobType : String := "application/gob"

/-- `DefaultOption` from part_000: the magic number, the gob codec, a 10 s
connect timeout and an unset (zero) handle timeout. -/
def DefaultOption : RpcOption :=
  { MagicNumber := MagicNumber, CodecType := GobType,
    ConnectTimeout := 10000000000, HandleTimeout := 0 }

/-- `parseOptions` from client.go.  Each element of `opts` is a possibly
nil `*Option`.  Zero options or a nil first option yield the defaults;
more than one option (with a non-nil first) is an error; a single option
gets its magic number overwritten and an empty codec type defaulted. -/
def parseOptions (opts : List (Option RpcOption)) : Except String RpcOption :=
  match opts with
  | [] => .ok DefaultOption
  | none :: _ => .ok DefaultOption
  | [some o] =>
    .ok { o with MagicNumber := DefaultOption.MagicNumber,
                 CodecType := if o.CodecType = "" then DefaultOption.CodecType
                              else o.CodecType }
  | some _ :: _ :: _ => .error "number of options is more than 1"

/-- Registry-backed discovery state, `RegistryDiscovery` in
registry_discovery.go (the embedded `MultiServersDiscovery` server list,
the last refresh instant and the staleness bound, both in nanoseconds). -/
structure RegistryDiscovery where
  servers : List String
  lastUpdate : Nat
  timeout : Nat
deriving DecidableEq

/-- Parsing of the `X-rpc-Servers` response header in
`RegistryDiscovery.Refresh`: split on commas, trim each part, keep the
non-empty ones. -/
def parseServerHeader (hdr : String) : List String :=
  ((hdr.splitOn ",").map String.trim).filter (fun s => s ≠ "")

/-- `RegistryDiscovery.Refresh`: a no-op returning nil while
`lastUpdate + timeout` is still in the future; otherwise perform the HTTP
GET (its outcome is the oracle `fetch`: an error, or the `X-rpc-Servers`
header value), returning the error with the state untouched on failure,
and installing the parsed list with `lastUpdate = now` on success. -/
def RegistryDiscovery.Refresh (d : RegistryDiscovery) (now : Nat)
    (fetch : Except String String) : Option String × RegistryDiscovery :=
  if now < d.lastUpdate + d.timeout then
    (none, d)
  else
    match fetch with
    | .error e => (some e, d)
    | .ok hdr => (none, { d with servers := parseServerHeader hdr, lastUpdate := now })

/-- Registry server state, `Registry` in registry.go: the liveness bound
and the map from endpoint address to the `start` instant of its last
heartbeat (an association list with unique keys). -/
structure Registry where
  timeout : Nat
  servers : List (String × Nat)
deriving DecidableEq

/-- The liveness test of `Registry.aliveServers`:
`r.timeout == 0 || s.start.Add(r.timeout).After(now)`. -/
def aliveFilter (timeout now : Nat) (p : String × Nat) : Bool :=
  timeout == 0 || decide (now < p.2 + timeout)

/-- `Registry.aliveServers`: keep exactly the live entries (deleting the
dead ones from the state) and return their addresses sorted, as
`sort.Strings` does. -/
def Registry.aliveServers (r : Registry) (now : Nat) : List String × Registry :=
  let keep := r.servers.filter (aliveFilter r.timeout now)
  ((keep.map Prod.fst).insertionSort (· ≤ ·), { r with servers := keep })

/-- The GET branch of `Registry.ServeHTTP`: set the `X-rpc-Servers`
response header to the comma join of `aliveServers` (which also evicts the
dead entries).  Returns the header value and the registry state after the
call. -/
def Registry.serveGET (r : Registry) (now : Nat) : String × Registry :=
  let res := r.aliveServers now
  (String.intercalate "," res.1, res.2)

/-! ## Helper lemmas -/

/-- `sendSeqs` emits exactly the consecutive counter values while the
counter stays below the `uint64` wrap. -/
theorem sendSeqs_eq_range' (n : Nat) :
    ∀ c : Client, c.closing = false → c.shutdown = false → c.seq + n ≤ U64 →
      sendSeqs c n = List.range' c.seq n := by
  induction n with
  | zero => intro c _ _ _; simp [sendSeqs]
  | succ m ih =>
    intro c hc hs hb
    have hreg : c.registerCall ⟨"", 0, 1⟩
        = (.ok c.seq, { c with pending := (c.seq, ⟨"", c.seq, 1⟩) :: c.pending,
                               seq := (c.seq + 1) % U64 }) := by
      simp [Client.registerCall, hc, hs]
    rw [sendSeqs, hreg]
    dsimp only
    rw [List.range'_succ]
    rcases Nat.lt_or_ge (c.seq + 1) U64 with h1 | h1
    · have hmod : (c.seq + 1) % U64 = c.seq + 1 := Nat.mod_eq_of_lt h1
      have h2 := ih { c with pending := (c.seq, ⟨"", c.seq, 1⟩) :: c.pending, seq := (c.seq + 1) % U64 }
        hc hs (by dsimp only; rw [hmod]; omega)
      rw [h2]
      dsimp only
      rw [hmod]
    · have hm0 : m = 0 := by omega
      subst hm0
      simp [sendSeqs]

/-- `range'` with step 1 is a strictly increasing chain. -/
theorem chain'_lt_range' (n : Nat) : ∀ s : Nat, List.Chain' (· < ·) (List.range' s n) := by
  induction n with
  | zero => intro s; simp
  | succ m ih =>
    intro s
    rw [List.range'_succ]
    cases m with
    | zero => simp
    | succ k =>
      rw [List.range'_succ, List.chain'_cons]
      exact ⟨by omega, by rw [← List.range'_succ]; exact ih (s + 1)⟩

/-! ## Claim theorems -/

/-- Claim C1 (code bug evaluation): with the service named in the request
absent from the service map, `findService` does not produce the
unknown-service dispatch error; it reaches the nil type assertion and
panics, so the server cannot respond and the connection does not stay up.
Ill-formed names and unknown methods, by contrast, do return per-request
errors. -/
theorem findService_unknownService_panics :
    findService [] "Foo.Sum" = FindResult.panicNil "Foo" ∧
    findService [("Foo", ⟨"Foo", [("Sum", ⟨0⟩)]⟩)] "Bar.Sum" = FindResult.panicNil "Bar" ∧
    findService [("Foo", ⟨"Foo", [("Sum", ⟨0⟩)]⟩)] "Foo.Bar"
      = FindResult.err "rpc server - can't find method: Bar" ∧
    findService [] "FooSum"
      = FindResult.err "rpc server - service/method request ill-formed: FooSum" := by
  refine ⟨?_, ?_, ?_, ?_⟩ <;> rfl

/-- Claim C2: for a dispatched request, if the handle timeout is zero the
single response written is the one computed by the handler; if the timeout
is positive and fires before the handler returns, the single response
written is the timeout error and the handler response is never written;
on every path exactly one response is written. -/
theorem handleRequest_one_response (h : Header) (t : Nat) (calledFirst : Bool)
    (res : Option String) (v : String) :
    handleRequest h 0 calledFirst res v = [handlerResponse h res v] ∧
    (0 < t → calledFirst = false →
      handleRequest h t calledFirst res v
        = [({ h with Error := timeoutErrMsg t }, Body.invalidRequest)]) ∧
    (0 < t → calledFirst = true →
      handleRequest h t calledFirst res v = [handlerResponse h res v]) ∧
    (handleRequest h t calledFirst res v).length = 1 := by
  refine ⟨by simp [handleRequest], ?_, ?_, ?_⟩
  · intro ht hcf
    subst hcf
    simp [handleRequest, Nat.pos_iff_ne_zero.mp ht]
  · intro ht hcf
    subst hcf
    simp [handleRequest, Nat.pos_iff_ne_zero.mp ht]
  · unfold handleRequest
    split
    · cases res <;> simp [handlerResponse]
    · split
      · cases res <;> simp [handlerResponse]
      · simp

/-- Witness for C2 at a concrete request: timeout 5, handler not yet
returned when the timeout fires. -/
theorem handleRequest_one_response_witness :
    (0 < 5) ∧
    handleRequest ⟨"Foo.Sum", 1, ""⟩ 5 false none "r"
      = [(⟨"Foo.Sum", 1, timeoutErrMsg 5⟩, Body.invalidRequest)] :=
  ⟨by decide,
   (handleRequest_one_response ⟨"Foo.Sum", 1, ""⟩ 5 false none "r").2.1 (by decide) rfl⟩

/-- Claim C3 (code bug evaluation): `Get` with `RoundRobinSelect` does
return `servers[index mod n]`, and the method body does compute the
advanced cursor, but because `Get` has a value receiver the stored state
is unchanged after the call, so the consecutive call returns the same
element instead of advancing through the list. -/
theorem roundRobin_cursor_not_advanced :
    (MultiServersDiscovery.Get ⟨["a", "b"], 0⟩ .RoundRobinSelect 0).1 = .ok "a" ∧
    (MultiServersDiscovery.Get ⟨["a", "b"], 0⟩ .RoundRobinSelect 0).2 = ⟨["a", "b"], 0⟩ ∧
    MultiServersDiscovery.getBody ⟨["a", "b"], 0⟩ .RoundRobinSelect 0
      = .ok ("a", ⟨["a", "b"], 1⟩) ∧
    ((MultiServersDiscovery.Get ⟨["a", "b"], 0⟩ .RoundRobinSelect 0).2.Get
        .RoundRobinSelect 0).1 = .ok "a" := by
  refine ⟨?_, ?_, ?_, ?_⟩ <;> rfl

/-- Claim C4: starting from a fresh client, the sequence numbers written
in request headers are exactly `1, 2, …, n` — strictly increasing from 1,
with 0 never appearing — for any number of requests below the `uint64`
wrap. -/
theorem client_seqs_strictly_increasing (n : Nat) (hn : n < U64) :
    sendSeqs newClientCodec n = List.range' 1 n ∧
    List.Chain' (· < ·) (sendSeqs newClientCodec n) ∧
    0 ∉ sendSeqs newClientCodec n := by
  have he : sendSeqs newClientCodec n = List.range' 1 n :=
    sendSeqs_eq_range' n newClientCodec rfl rfl (by simp only [newClientCodec]; omega)
  refine ⟨he, ?_, ?_⟩
  · rw [he]; exact chain'_lt_range' n 1
  · rw [he]
    intro h0
    have := List.mem_range'_1.mp h0
    omega

/-- Witness for C4 at three requests from a fresh client. -/
theorem client_seqs_strictly_increasing_witness :
    3 < U64 ∧ sendSeqs newClientCodec 3 = List.range' 1 3 :=
  ⟨by decide, (client_seqs_strictly_increasing 3 (by decide)).1⟩

/-- Counterexample for C5: the connect line actually written does not end
in CRLF CRLF as the claim states; the source formats it with two bare
newlines. -/
theorem connectRequestLine_not_crlf :
    connectRequestLine ≠ "CONNECT /_rpc_ HTTP/1.0\r\n\r\n" := by decide

/-- Claim C5 as amended: when dialing over HTTP the client writes exactly
the bytes `CONNECT /_rpc_ HTTP/1.0` followed by two LF characters (not
CRLF CRLF), and it proceeds with the normal Option handshake if and only
if the parsed response status is exactly `200 Connected to RPC`; any other
outcome is a fatal connect error. -/
theorem newHTTPClient_connect_line_and_status :
    connectRequestLine = "CONNECT /_rpc_ HTTP/1.0\n\n" ∧
    ∀ resp : Except String String,
      newHTTPClientCheck resp = .ok () ↔ resp = .ok connected := by
  refine ⟨rfl, ?_⟩
  intro resp
  cases resp with
  | error e => simp [newHTTPClientCheck]
  | ok st =>
    by_cases hst : st = connected <;> simp [newHTTPClientCheck, hst]

/-- Claim C6: `RegistryDiscovery.Refresh` is a no-op returning nil while
`now < lastUpdate + timeout`; past that bound it performs the fetch, and
a failed fetch returns that error with the stored server list (and the
whole state) retained unchanged. -/
theorem refresh_noop_and_error_retention (d : RegistryDiscovery) (now : Nat)
    (fetch : Except String String) (e : String) :
    (now < d.lastUpdate + d.timeout → d.Refresh now fetch = (none, d)) ∧
    (d.lastUpdate + d.timeout ≤ now → fetch = .error e →
      d.Refresh now fetch = (some e, d)) := by
  constructor
  · intro hlt
    simp [RegistryDiscovery.Refresh, hlt]
  · intro hge hf
    subst hf
    simp [RegistryDiscovery.Refresh, Nat.not_lt.mpr hge]

/-- Witness for C6: a fresh refresh is skipped; a stale one propagates the
fetch error and keeps the list. -/
theorem refresh_noop_and_error_retention_witness :
    (5 < 10 + 100) ∧
    RegistryDiscovery.Refresh ⟨["s"], 10, 100⟩ 5 (.ok "x,y") = (none, ⟨["s"], 10, 100⟩) ∧
    (10 + 100 ≤ 200) ∧
    RegistryDiscovery.Refresh ⟨["s"], 10, 100⟩ 200 (.error "boom")
      = (some "boom", ⟨["s"], 10, 100⟩) :=
  ⟨by decide,
   (refresh_noop_and_error_retention ⟨["s"], 10, 100⟩ 5 (.ok "x,y") "boom").1 (by decide),
   by decide,
   (refresh_noop_and_error_retention ⟨["s"], 10, 100⟩ 200 (.error "boom") "boom").2
     (by decide) rfl⟩

/-- Claim C7: a GET served by the registry returns in `X-rpc-Servers` the
comma join of a sorted permutation of exactly the endpoints whose last
heartbeat is within the timeout, and the state after the call retains
exactly those entries (the stale ones are deleted). -/
theorem registry_get_sorted_alive_and_evicts (r : Registry) (now : Nat)
    (h : 0 < r.timeout) :
    (∃ l : List String,
       (r.serveGET now).1 = String.intercalate "," l ∧
       List.Sorted (· ≤ ·) l ∧
       l.Perm ((r.servers.filter fun p => decide (now < p.2 + r.timeout)).map Prod.fst)) ∧
    (r.serveGET now).2.servers
      = r.servers.filter fun p => decide (now < p.2 + r.timeout) := by
  have hfil : r.servers.filter (aliveFilter r.timeout now)
      = r.servers.filter fun p => decide (now < p.2 + r.timeout) := by
    apply List.filter_congr
    intro p _
    unfold aliveFilter
    have h0 : (r.timeout == 0) = false := by
      simp [Nat.pos_iff_ne_zero.mp h]
    rw [h0, Bool.false_or]
  constructor
  · refine ⟨((r.servers.filter (aliveFilter r.timeout now)).map Prod.fst).insertionSort
        (· ≤ ·), rfl, List.sorted_insertionSort _ _, ?_⟩
    exact (List.perm_insertionSort _ _).trans (by rw [hfil])
  · show (r.servers.filter (aliveFilter r.timeout now))
        = r.servers.filter fun p => decide (now < p.2 + r.timeout)
    exact hfil

/-- Witness for C7 on a concrete registry: timeout 300, heartbeats at 10,
20 and 0, queried at time 305 (so the entry started at 0 is stale). -/
theorem registry_get_sorted_alive_and_evicts_witness :
    0 < (Registry.mk 300 [("b", 10), ("a", 20), ("c", 0)]).timeout ∧
    ((∃ l : List String,
       ((Registry.mk 300 [("b", 10), ("a", 20), ("c", 0)]).serveGET 305).1
         = String.intercalate "," l ∧
       List.Sorted (· ≤ ·) l ∧
       l.Perm (((Registry.mk 300 [("b", 10), ("a", 20), ("c", 0)]).servers.filter
         fun p => decide (305 < p.2 + (Registry.mk 300 [("b", 10), ("a", 20), ("c", 0)]).timeout)).map
           Prod.fst)) ∧
     ((Registry.mk 300 [("b", 10), ("a", 20), ("c", 0)]).serveGET 305).2.servers
       = (Registry.mk 300 [("b", 10), ("a", 20), ("c", 0)]).servers.filter
           fun p => decide (305 < p.2 + (Registry.mk 300 [("b", 10), ("a", 20), ("c", 0)]).timeout)) :=
  ⟨by decide,
   registry_get_sorted_alive_and_evicts (Registry.mk 300 [("b", 10), ("a", 20), ("c", 0)])
     305 (by decide)⟩

/-- Claim C8: the first `Close` on a client not yet closing marks it
closing and closes the codec (exactly this once); on any client already
marked closing — in particular on the state the first call produces —
`Close` returns `ErrShutdown`, leaves the state unchanged and does not
close the codec again. -/
theorem client_close_idempotent (c : Client) (h : c.closing = false) :
    Client.Close c = (.ok (), { c with closing := true }, true) ∧
    (∀ c' : Client, c'.closing = true →
      Client.Close c' = (.error ErrShutdown, c', false)) ∧
    Client.Close { c with closing := true }
      = (.error ErrShutdown, { c with closing := true }, false) := by
  refine ⟨by simp [Client.Close, h], ?_, by simp [Client.Close]⟩
  intro c' h'
  simp [Client.Close, h']

/-- Witness for C8 on a fresh client. -/
theorem client_close_idempotent_witness :
    newClientCodec.closing = false ∧
    Client.Close newClientCodec = (.ok (), { newClientCodec with closing := true }, true) :=
  ⟨rfl, (client_close_idempotent newClientCodec rfl).1⟩

/-- Counterexample for C9: two options whose first is nil are accepted
(yielding the defaults), so passing more than one option does not always
return an error as the claim states. -/
theorem parseOptions_two_options_first_nil_accepted :
    parseOptions [none, some DefaultOption] = .ok DefaultOption ∧
    ∀ e : String, parseOptions [none, some DefaultOption] ≠ .error e := by
  refine ⟨rfl, ?_⟩
  intro e hcontra
  simp [parseOptions] at hcontra

/-- Claim C9 as amended: every accepted input yields an Option whose
MagicNumber is the protocol constant and whose CodecType is non-empty
(gob when left empty); zero options or a nil first option yield the
defaults; more than one option returns an error unless the first option
is nil, in which case the defaults are returned. -/
theorem parseOptions_magic_and_codec :
    (∀ opts r, parseOptions opts = .ok r →
      r.MagicNumber = MagicNumber ∧ r.CodecType ≠ "") ∧
    (∀ (o : RpcOption) (rest : List (Option RpcOption)), rest ≠ [] →
      parseOptions (some o :: rest) = .error "number of options is more than 1") ∧
    (∀ rest : List (Option RpcOption), parseOptions (none :: rest) = .ok DefaultOption) ∧
    parseOptions [] = .ok DefaultOption := by
  refine ⟨?_, ?_, ?_, rfl⟩
  · intro opts r hok
    match opts, hok with
    | [], hok =>
      cases hok
      exact ⟨rfl, by decide⟩
    | none :: rest, hok =>
      cases hok
      exact ⟨rfl, by decide⟩
    | [some o], hok =>
      cases hok
      refine ⟨rfl, ?_⟩
      by_cases hct : o.CodecType = "" <;> simp [hct, DefaultOption, GobType]
    | some o :: o2 :: rest, hok =>
      cases hok
  · intro o rest hrest
    match rest with
    | [] => exact absurd rfl hrest
    | x :: xs => rfl
  · intro rest
    rfl

/-- Witness for C9: a two-option list with non-nil head errors out, and a
single option with empty codec type is accepted with the gob default. -/
theorem parseOptions_magic_and_codec_witness :
    parseOptions [some ⟨0, "", 0, 0⟩, some ⟨0, "", 0, 0⟩]
      = .error "number of options is more than 1" ∧
    ((⟨MagicNumber, GobType, 0, 0⟩ : RpcOption).MagicNumber = MagicNumber ∧
      (⟨MagicNumber, GobType, 0, 0⟩ : RpcOption).CodecType ≠ "") :=
  ⟨parseOptions_magic_and_codec.2.1 ⟨0, "", 0, 0⟩ [some ⟨0, "", 0, 0⟩] (by simp),
   parseOptions_magic_and_codec.1 [some ⟨0, "", 0, 0⟩] ⟨MagicNumber, GobType, 0, 0⟩ rfl⟩

/-- Claim C10: `Go` with a nil done channel allocates a buffered channel
of capacity 10 and proceeds; `Go` with a non-nil unbuffered done channel
panics before sending; hence every Call that `Go` returns carries a
buffered (positive-capacity) Done channel. -/
theorem clientGo_buffered_done :
    clientGo none = .returned 10 ∧
    clientGo (some 0) = .panicked ∧
    ∀ (d : Option Nat) (c : Nat), clientGo d = .returned c → 0 < c := by
  refine ⟨rfl, rfl, ?_⟩
  intro d c hc
  match d, hc with
  | none, hc => cases hc; omega
  | some 0, hc => cases hc
  | some (k + 1), hc => cases hc; omega

/-- Witness for C10 at the nil-done call. -/
theorem clientGo_buffered_done_witness :
    clientGo none = .returned 10 ∧ 0 < 10 :=
  ⟨clientGo_buffered_done.1,
   clientGo_buffered_done.2.2 none 10 clientGo_buffered_done.1⟩

end Violifer
